import Mathlib

/-!
Verification of the UserDefinedSerial device adapter (micro-manager).

The repository ships the adapter's header, `UserDefinedSerial.h`, which
declares the byte-string escape codec, the response-detector hierarchy,
the `UserDefSerialBase` transaction engine, and the shutter / state-device
personalities. The implementation file is not part of the sources, so all
operations except the inline `UserDefSerialShutter::Fire` are modelled from
the specification and verified against the properties it states.

Byte strings (`std::vector<char>`) and escaped text (`std::string`) are both
byte sequences; we model both as `List Nat` of values below 256. The serial
port is modelled as the sequence of bytes it will deliver, together with a
log of the writes performed and a count of the read operations issued, so
that "performs no I/O" and "sends once" are provable statements.
-/

namespace UserDefinedSerial

/-- Modelled from the spec: error taxonomy of §7 (the implementation's
integer status codes are not in the sources; the spec maps nonzero codes
1:1 to these kinds). `unsupportedCommand` stands for the
`DEVICE_UNSUPPORTED_COMMAND` code returned by `UserDefSerialShutter::Fire`. -/
inductive Err where
  | config
  | encoding
  | portIO
  | timeout
  | mismatch (expected : List (List Nat)) (actual : List Nat)
  | unsupportedCommand
deriving DecidableEq, Repr

/-- Printable ASCII range test used by the escape codec. -/
def isPrintable (b : Nat) : Bool := 32 ≤ b && b ≤ 126

/-- Lower-case hexadecimal digit for a value below 16, as a byte. -/
def hexDigit (n : Nat) : Nat := if n < 10 then 48 + n else 87 + n

/-- Modelled from the spec: per-byte escape of §4.1
(`EscapedStringFromByteString`, implementation not in the sources).
Printable non-backslash bytes are emitted literally; backslash (92) as
`\\`; CR, LF, TAB as `\r`, `\n`, `\t`; every other non-printable byte as a
`\x` escape with two hex digits. -/
def encByte (b : Nat) : List Nat :=
  if b = 92 then [92, 92]
  else if b = 13 then [92, 114]
  else if b = 10 then [92, 110]
  else if b = 9 then [92, 116]
  else if isPrintable b then [b]
  else [92, 120, hexDigit (b / 16), hexDigit (b % 16)]

/-- Modelled from the spec: `EscapedStringFromByteString` (§4.1), the
escape encoder, whose implementation is not in the sources. -/
def EscapedStringFromByteString (bs : List Nat) : List Nat :=
  (bs.map encByte).flatten

/-- Value of a hexadecimal digit byte (0-9, a-f, A-F), if it is one. -/
def hexVal (c : Nat) : Option Nat :=
  if 48 ≤ c ∧ c ≤ 57 then some (c - 48)
  else if 97 ≤ c ∧ c ≤ 102 then some (c - 87)
  else if 65 ≤ c ∧ c ≤ 70 then some (c - 55)
  else none

mutual

/-- Modelled from the spec: `ByteStringFromEscapedString` (§4.1), the
escape decoder, whose implementation is not in the sources. Fails (returns
`none`, i.e. `EncodingError`) on a dangling trailing backslash, an
unrecognized escape letter, or invalid/incomplete hex digits after `\x`;
on failure no bytes at all are returned. -/
def ByteStringFromEscapedString : List Nat → Option (List Nat)
  | [] => some []
  | c :: rest =>
    if c = 92 then decodeEscape rest
    else (ByteStringFromEscapedString rest).map (fun l => c :: l)
termination_by l => l.length

/-- Decoding of the text following a backslash. An empty remainder is a
dangling trailing backslash; a letter other than the recognized escapes
fails. -/
def decodeEscape : List Nat → Option (List Nat)
  | [] => none
  | e :: rest2 =>
    if e = 92 then (ByteStringFromEscapedString rest2).map (fun l => 92 :: l)
    else if e = 114 then (ByteStringFromEscapedString rest2).map (fun l => 13 :: l)
    else if e = 110 then (ByteStringFromEscapedString rest2).map (fun l => 10 :: l)
    else if e = 116 then (ByteStringFromEscapedString rest2).map (fun l => 9 :: l)
    else if e = 120 then decodeHexEscape rest2
    else none
termination_by l => l.length

/-- Decoding of the two hex digits following a `\x` escape; fewer than two
remaining characters or a non-hex digit fails. -/
def decodeHexEscape : List Nat → Option (List Nat)
  | d1 :: d2 :: rest3 =>
    (hexVal d1).bind fun hi =>
      (hexVal d2).bind fun lo =>
        (ByteStringFromEscapedString rest3).map (fun l => (16 * hi + lo) :: l)
  | _ => none
termination_by l => l.length

end

mutual

/-- Scanner for escaped text: `true` iff every backslash in the text starts
one of the recognized escape forms (so the text has no stray, unescaped
backslash). -/
def noStrayBackslash : List Nat → Bool
  | [] => true
  | c :: rest =>
    if c = 92 then strayEscapeHead rest else noStrayBackslash rest
termination_by l => l.length

/-- Head check after a backslash for `noStrayBackslash`. -/
def strayEscapeHead : List Nat → Bool
  | [] => false
  | e :: rest2 =>
    (e == 92 || e == 114 || e == 110 || e == 116 || e == 120) &&
      noStrayBackslash rest2
termination_by l => l.length

end

mutual

/-- Modelled from the spec: the well-formedness condition of §4.1 on
escaped text — no dangling trailing backslash, no unrecognized escape
letter, no invalid or incomplete hex digits after a hex escape. -/
def wellFormedEscapes : List Nat → Bool
  | [] => true
  | c :: rest =>
    if c = 92 then wellFormedAfterBackslash rest else wellFormedEscapes rest
termination_by l => l.length

/-- Well-formedness of the text following a backslash. -/
def wellFormedAfterBackslash : List Nat → Bool
  | [] => false
  | e :: rest2 =>
    if e = 92 ∨ e = 114 ∨ e = 110 ∨ e = 116 then wellFormedEscapes rest2
    else if e = 120 then wellFormedHexDigits rest2
    else false
termination_by l => l.length

/-- Well-formedness of the two hex digits following a `\x` escape. -/
def wellFormedHexDigits : List Nat → Bool
  | d1 :: d2 :: rest3 =>
    (hexVal d1).isSome && (hexVal d2).isSome && wellFormedEscapes rest3
  | _ => false
termination_by l => l.length

end

/-- Model of the serial port as seen through the host I/O contract (§6):
the bytes it will deliver, the log of messages written to it, and the
number of read operations issued so far. -/
structure Port where
  incoming : List Nat
  written : List (List Nat)
  readOps : Nat
deriving DecidableEq, Repr

/-- Response-detection strategies (`ResponseDetector` hierarchy of the
header): `ignoring` (IgnoringResponseDetector), `terminator`
(TerminatorResponseDetector, with its terminator byte sequence), and
`fixedLen` (FixedLengthResponseDetector, with its byte count). -/
inductive ResponseDetector where
  | ignoring
  | terminator (term : List Nat)
  | fixedLen (byteCount : Nat)
deriving DecidableEq, Repr

/-- Modelled from the spec: the read loop of `TerminatorResponseDetector::Recv`
(§4.2, implementation not in the sources): read one byte at a time,
accumulate, stop when the tail of the buffer equals the terminator; if the
port yields no further byte before the read timeout (modelled as exhaustion
of `incoming`), fail with `TimeoutError`. Returns the result, the bytes
left on the port, and the number of reads issued. -/
def termRecvAux (term : List Nat) : List Nat → List Nat →
    (Except Err (List Nat)) × List Nat × Nat
  | [], _ => (.error .timeout, [], 0)
  | b :: rest, acc =>
    let acc2 := acc ++ [b]
    if term.isSuffixOf acc2 then (.ok acc2, rest, 1)
    else
      let r := termRecvAux term rest acc2
      (r.1, r.2.1, r.2.2 + 1)

/-- Modelled from the spec: `Recv` of each detector (§4.2, implementations
not in the sources). `ignoring` performs no I/O and succeeds with an empty
byte string; `terminator` accumulates until the terminator is the tail of
the buffer; `fixedLen` reads exactly `byteCount` bytes or times out. -/
def ResponseDetector.recv : ResponseDetector → Port → (Except Err (List Nat)) × Port
  | .ignoring, p => (.ok [], p)
  | .terminator term, p =>
    let r := termRecvAux term p.incoming []
    (r.1, { p with incoming := r.2.1, readOps := p.readOps + r.2.2 })
  | .fixedLen n, p =>
    if n ≤ p.incoming.length then
      (.ok (p.incoming.take n),
        { p with incoming := p.incoming.drop n, readOps := p.readOps + n })
    else
      (.error .timeout,
        { p with incoming := [], readOps := p.readOps + p.incoming.length })

/-- Bytes of an ASCII string, used to write method-name identifiers. -/
def strBytes (s : String) : List Nat := s.toList.map Char.toNat

/-- Split an identifier at the first colon (58) into `Kind` and the
optional `Param` (§4.2 identifier grammar `Kind` or `Kind:Param`). -/
def splitColon : List Nat → List Nat × Option (List Nat)
  | [] => ([], none)
  | c :: rest =>
    if c = 58 then ([], some rest)
    else
      let r := splitColon rest
      (c :: r.1, r.2)

/-- Accumulating decimal parser over digit bytes. -/
def parseDecimalAux : List Nat → Nat → Option Nat
  | [], acc => some acc
  | d :: rest, acc =>
    if 48 ≤ d ∧ d ≤ 57 then parseDecimalAux rest (acc * 10 + (d - 48))
    else none

/-- Non-negative decimal integer from a non-empty sequence of digit bytes. -/
def parseDecimal : List Nat → Option Nat
  | [] => none
  | ds => parseDecimalAux ds 0

/-- Modelled from the spec: `ResponseDetector::NewByName` (§4.2,
implementation not in the sources). The identifier has the form `Kind` or
`Kind:Param` with `Kind` one of `Ignore`, `Terminator`, `Fixed`; unknown
kinds and missing/malformed parameters are `ConfigError` (the terminator
parameter must decode via the codec, the length parameter must parse as a
non-negative integer). -/
def ResponseDetector.newByName (ident : List Nat) : Except Err ResponseDetector :=
  let r := splitColon ident
  if r.1 = strBytes "Ignore" then
    match r.2 with
    | none => .ok .ignoring
    | some _ => .error .config
  else if r.1 = strBytes "Terminator" then
    match r.2 with
    | none => .error .config
    | some param =>
      match ByteStringFromEscapedString param with
      | some term => .ok (.terminator term)
      | none => .error .config
  else if r.1 = strBytes "Fixed" then
    match r.2 with
    | none => .error .config
    | some param =>
      match parseDecimal param with
      | some n => .ok (.fixedLen n)
      | none => .error .config
  else .error .config

/-- Lifecycle states of §4.4. -/
inductive DevState where
  | unconfigured
  | preInit
  | ready
  | shutDown
deriving DecidableEq, Repr

/-- Model of the `UserDefSerialBase` instance variables (header lines
167-184) together with the spec's lifecycle state (§4.4); `initialized_`
of the header is subsumed by `state`. -/
structure UserDefSerialBase where
  state : DevState
  binaryMode : Bool
  asciiTerminator : List Nat
  detectionMethod : List Nat
  responseDetector : Option ResponseDetector
  initializeCommand : List Nat
  initializeResponse : List Nat
  shutdownCommand : List Nat
  shutdownResponse : List Nat
deriving DecidableEq, Repr

/-- Modelled from the spec: `UserDefSerialBase::Send` (§4.3): in non-binary
mode the ASCII terminator is appended; the resulting bytes are written to
the port as one message. -/
def UserDefSerialBase.send (d : UserDefSerialBase) (p : Port)
    (command : List Nat) : Port :=
  let out := if d.binaryMode then command else command ++ d.asciiTerminator
  { p with written := p.written ++ [out] }

/-- Receive via the bound response detector; a device with no detector
bound cannot receive (`ConfigError`). -/
def UserDefSerialBase.recv (d : UserDefSerialBase) (p : Port) :
    (Except Err (List Nat)) × Port :=
  match d.responseDetector with
  | some det => det.recv p
  | none => (.error .config, p)

/-- Modelled from the spec: `UserDefSerialBase::SendRecv` (§4.3,
implementation not in the sources): send, receive via the bound detector,
succeed iff the received bytes equal `expectedResponse` exactly. -/
def UserDefSerialBase.sendRecv (d : UserDefSerialBase) (p : Port)
    (command expectedResponse : List Nat) : (Except Err Unit) × Port :=
  let p1 := d.send p command
  let r := d.recv p1
  match r.1 with
  | .ok resp =>
    if resp = expectedResponse then (.ok (), r.2)
    else (.error (.mismatch [expectedResponse] resp), r.2)
  | .error e => (.error e, r.2)

/-- Index of the first element of `alts` equal to `resp`, in list order. -/
def firstMatchIdx (alts : List (List Nat)) (resp : List Nat) : Option Nat :=
  match alts with
  | [] => none
  | a :: rest =>
    if a = resp then some 0 else (firstMatchIdx rest resp).map (· + 1)

/-- Modelled from the spec: `UserDefSerialBase::SendQueryRecvAlternative`
(§4.3, implementation not in the sources): send once, receive once,
return the index of the first alternative equal to the received bytes;
`ResponseMismatchError` if none matches. -/
def UserDefSerialBase.sendQueryRecvAlternative (d : UserDefSerialBase)
    (p : Port) (command : List Nat) (responseAlts : List (List Nat)) :
    (Except Err Nat) × Port :=
  let p1 := d.send p command
  let r := d.recv p1
  match r.1 with
  | .ok resp =>
    match firstMatchIdx responseAlts resp with
    | some i => (.ok i, r.2)
    | none => (.error (.mismatch responseAlts resp), r.2)
  | .error e => (.error e, r.2)

/-- Modelled from the spec: `UserDefSerialBase::Initialize` (§4.4,
implementation not in the sources). Only effective from `PreInit`: builds
the response detector from the configured detection-method identifier
(aborting on `ConfigError`), then, if an init command template is
configured, performs the init `sendRecv`; any failure aborts leaving the
state `PreInit`; on full success the state becomes `Ready`. -/
def UserDefSerialBase.initDevice (d : UserDefSerialBase) (p : Port) :
    (Except Err Unit) × UserDefSerialBase × Port :=
  if d.state = .preInit then
    match ResponseDetector.newByName d.detectionMethod with
    | .error e => (.error e, d, p)
    | .ok det =>
      let d2 := { d with responseDetector := some det }
      if d2.initializeCommand = [] then
        (.ok (), { d2 with state := .ready }, p)
      else
        let r := d2.sendRecv p d2.initializeCommand d2.initializeResponse
        match r.1 with
        | .ok _ => (.ok (), { d2 with state := .ready }, r.2)
        | .error e => (.error e, d, r.2)
  else (.ok (), d, p)

/-- Modelled from the spec: `UserDefSerialBase::Shutdown` (§4.4,
implementation not in the sources). From `ShutDown` it is a no-op; from
`Ready`, if a shutdown command template is configured the shutdown
`sendRecv` is attempted but its failure is not propagated; the state
always becomes `ShutDown`. -/
def UserDefSerialBase.shutdown (d : UserDefSerialBase) (p : Port) :
    (Except Err Unit) × UserDefSerialBase × Port :=
  if d.state = .shutDown then (.ok (), d, p)
  else if d.state = .ready then
    if d.shutdownCommand = [] then (.ok (), { d with state := .shutDown }, p)
    else
      let r := d.sendRecv p d.shutdownCommand d.shutdownResponse
      (.ok (), { d with state := .shutDown }, r.2)
  else (.ok (), d, p)

/-- Model of the `UserDefSerialShutter` instance variables (header lines
219-228) on top of the base device. -/
structure UserDefSerialShutter where
  base : UserDefSerialBase
  lastSetOpen : Bool
  openCommand : List Nat
  openResponse : List Nat
  closeCommand : List Nat
  closeResponse : List Nat
  queryCommand : List Nat
  queryOpenResponse : List Nat
  queryCloseResponse : List Nat
deriving DecidableEq, Repr

/-- Embedded from the source (header line 202):
`virtual int Fire(double) { return DEVICE_UNSUPPORTED_COMMAND; }`.
The argument is ignored and the body is a bare return, so the device and
the port pass through unchanged. -/
def UserDefSerialShutter.fire (sh : UserDefSerialShutter) (p : Port)
    (_deltaT : Float) : (Except Err Unit) × UserDefSerialShutter × Port :=
  (.error .unsupportedCommand, sh, p)

/-- Model of the `UserDefSerialStateDevice` instance variables (header
lines 261-268) on top of the base device. -/
structure UserDefSerialStateDevice where
  base : UserDefSerialBase
  numPositions : Nat
  currentPosition : Nat
  positionCommands : List (List Nat)
  positionResponses : List (List Nat)
  queryCommand : List Nat
  queryResponses : List (List Nat)
deriving DecidableEq, Repr

/-- Modelled from the spec: `setState(i)` of the indexed personality
(§4.5, realized by `UserDefSerialStateDevice::OnState`, implementation not
in the sources): an index outside `[0, numPositions)` is rejected with
`ConfigError` (never clamped); otherwise the position's `sendRecv` runs
and on success `currentPosition` becomes `i`. -/
def UserDefSerialStateDevice.setState (sd : UserDefSerialStateDevice)
    (p : Port) (i : Int) : (Except Err Unit) × UserDefSerialStateDevice × Port :=
  if i < 0 ∨ (sd.numPositions : Int) ≤ i then (.error .config, sd, p)
  else
    match sd.base.sendRecv p (sd.positionCommands.getD i.toNat [])
        (sd.positionResponses.getD i.toNat []) with
    | (.ok _, q) => (.ok (), { sd with currentPosition := i.toNat }, q)
    | (.error e, q) => (.error e, sd, q)

/-- Concrete port used by the witnesses: the hardware will reply `OK\r\n`. -/
def examplePort : Port := { incoming := [79, 75, 13, 10], written := [], readOps := 0 }

/-- Concrete pre-initialization device used by the witnesses. -/
def exampleBase : UserDefSerialBase :=
  { state := .preInit
    binaryMode := true
    asciiTerminator := []
    detectionMethod := strBytes "Ignore"
    responseDetector := some .ignoring
    initializeCommand := []
    initializeResponse := []
    shutdownCommand := []
    shutdownResponse := []
    }

/-- Concrete ready device used by the witnesses. -/
def exampleReady : UserDefSerialBase := { exampleBase with state := .ready }

/-- Concrete three-position state device used by the witnesses. -/
def exampleStateDevice : UserDefSerialStateDevice :=
  { base := exampleReady
    numPositions := 3
    currentPosition := 0
    positionCommands := [[80], [81], [82]]
    positionResponses := [[], [], []]
    queryCommand := []
    queryResponses := [[48], [49], [50]]
    }

section Theorems

theorem hexVal_hexDigit (n : Nat) (h : n < 16) : hexVal (hexDigit n) = some n := by
  unfold hexVal hexDigit
  by_cases h10 : n < 10
  · rw [if_pos h10, if_pos (by omega)]
    congr 1
    omega
  · rw [if_neg h10, if_neg (by omega), if_pos (by omega)]
    congr 1
    omega

theorem decode_encByte (b : Nat) (hb : b < 256) (s : List Nat) :
    ByteStringFromEscapedString (encByte b ++ s)
      = (ByteStringFromEscapedString s).map (fun l => b :: l) := by
  unfold encByte
  by_cases h92 : b = 92
  · subst h92
    simp [ByteStringFromEscapedString, decodeEscape]
  · rw [if_neg h92]
    by_cases h13 : b = 13
    · subst h13
      simp [ByteStringFromEscapedString, decodeEscape]
    · rw [if_neg h13]
      by_cases h10 : b = 10
      · subst h10
        simp [ByteStringFromEscapedString, decodeEscape]
      · rw [if_neg h10]
        by_cases h9 : b = 9
        · subst h9
          simp [ByteStringFromEscapedString, decodeEscape]
        · rw [if_neg h9]
          by_cases hp : isPrintable b
          · rw [if_pos hp]
            simp [ByteStringFromEscapedString, h92]
          · rw [if_neg hp]
            have hhi := hexVal_hexDigit (b / 16) (by omega)
            have hlo := hexVal_hexDigit (b % 16) (Nat.mod_lt _ (by omega))
            simp [ByteStringFromEscapedString, decodeEscape, decodeHexEscape,
              hhi, hlo, Nat.div_add_mod]

/-- C1: for every byte string `b`, decoding the result of encoding `b`
succeeds and returns exactly `b`, including when `b` contains zero bytes,
backslashes, or non-printable bytes. -/
theorem decode_encode_roundtrip (bs : List Nat) (hb : ∀ b ∈ bs, b < 256) :
    ByteStringFromEscapedString (EscapedStringFromByteString bs) = some bs := by
  induction bs with
  | nil => simp [EscapedStringFromByteString, ByteStringFromEscapedString]
  | cons b rest ih =>
    have hjoin : EscapedStringFromByteString (b :: rest)
        = encByte b ++ EscapedStringFromByteString rest := by
      simp [EscapedStringFromByteString]
    rw [hjoin, decode_encByte b (hb b (List.mem_cons_self b rest)),
      ih (fun x hx => hb x (List.mem_cons_of_mem b hx))]
    rfl

/-- Witness for C1 at a byte string containing a zero byte, a tab, a
backslash, a printable byte and a high non-printable byte. -/
theorem decode_encode_roundtrip_witness :
    (∀ b ∈ [0, 9, 92, 65, 200], b < 256) ∧
      ByteStringFromEscapedString (EscapedStringFromByteString [0, 9, 92, 65, 200])
        = some [0, 9, 92, 65, 200] :=
  ⟨by decide, decode_encode_roundtrip [0, 9, 92, 65, 200] (by decide)⟩

theorem hexDigit_printable (n : Nat) (h : n < 16) :
    32 ≤ hexDigit n ∧ hexDigit n ≤ 126 ∧ hexDigit n ≠ 92 := by
  unfold hexDigit
  split <;> omega

theorem encByte_mem_printable (b : Nat) (hb : b < 256) :
    ∀ c ∈ encByte b, 32 ≤ c ∧ c ≤ 126 := by
  intro c hc
  unfold encByte at hc
  split_ifs at hc with h92 h13 h10 h9 hp
  · simp at hc
    omega
  · simp at hc
    rcases hc with h | h <;> omega
  · simp at hc
    rcases hc with h | h <;> omega
  · simp at hc
    rcases hc with h | h <;> omega
  · simp at hc
    subst hc
    simp [isPrintable] at hp
    omega
  · have hhi := hexDigit_printable (b / 16) (by omega)
    have hlo := hexDigit_printable (b % 16) (Nat.mod_lt _ (by omega))
    simp at hc
    rcases hc with h | h | h | h <;> subst h <;> omega

theorem noStray_encByte (b : Nat) (hb : b < 256) (s : List Nat) :
    noStrayBackslash (encByte b ++ s) = noStrayBackslash s := by
  unfold encByte
  split_ifs with h92 h13 h10 h9 hp
  · simp [noStrayBackslash, strayEscapeHead]
  · simp [noStrayBackslash, strayEscapeHead]
  · simp [noStrayBackslash, strayEscapeHead]
  · simp [noStrayBackslash, strayEscapeHead]
  · simp [noStrayBackslash, h92]
  · have hhi := hexDigit_printable (b / 16) (by omega)
    have hlo := hexDigit_printable (b % 16) (Nat.mod_lt _ (by omega))
    simp [noStrayBackslash, strayEscapeHead, hhi.2.2, hlo.2.2]

/-- C8: for every byte string, the encoder's output is free of raw control
bytes (every output byte is printable ASCII) and of unescaped backslashes;
printable non-backslash bytes appear literally, the backslash as `\\`,
CR, LF and TAB as `\r`, `\n`, `\t`, and every other non-printable byte as
a two-hex-digit escape. -/
theorem escape_output_safe (bs : List Nat) (hb : ∀ b ∈ bs, b < 256) :
    (∀ c ∈ EscapedStringFromByteString bs, 32 ≤ c ∧ c ≤ 126) ∧
    noStrayBackslash (EscapedStringFromByteString bs) = true ∧
    (∀ b, isPrintable b = true → b ≠ 92 → encByte b = [b]) ∧
    (encByte 92 = [92, 92] ∧ encByte 13 = [92, 114] ∧
      encByte 10 = [92, 110] ∧ encByte 9 = [92, 116]) ∧
    (∀ b, isPrintable b = false → b ≠ 13 → b ≠ 10 → b ≠ 9 →
      encByte b = [92, 120, hexDigit (b / 16), hexDigit (b % 16)]) := by
  refine ⟨?_, ?_, ?_, ⟨rfl, rfl, rfl, rfl⟩, ?_⟩
  · induction bs with
    | nil => simp [EscapedStringFromByteString]
    | cons b rest ih =>
      intro c hc
      have hsplit : EscapedStringFromByteString (b :: rest)
          = encByte b ++ EscapedStringFromByteString rest := by
        simp [EscapedStringFromByteString]
      rw [hsplit] at hc
      rcases List.mem_append.mp hc with h | h
      · exact encByte_mem_printable b (hb b (List.mem_cons_self b rest)) c h
      · exact ih (fun x hx => hb x (List.mem_cons_of_mem b hx)) c h
  · induction bs with
    | nil => simp [EscapedStringFromByteString, noStrayBackslash]
    | cons b rest ih =>
      have hsplit : EscapedStringFromByteString (b :: rest)
          = encByte b ++ EscapedStringFromByteString rest := by
        simp [EscapedStringFromByteString]
      rw [hsplit, noStray_encByte b (hb b (List.mem_cons_self b rest))]
      exact ih (fun x hx => hb x (List.mem_cons_of_mem b hx))
  · intro b hp h92
    have hr : 32 ≤ b ∧ b ≤ 126 := by
      simpa [isPrintable] using hp
    unfold encByte
    rw [if_neg h92, if_neg (by omega), if_neg (by omega), if_neg (by omega),
      if_pos hp]
  · intro b hp h13 h10 h9
    have h92 : b ≠ 92 := by
      intro hcontra
      subst hcontra
      simp [isPrintable] at hp
    unfold encByte
    rw [if_neg h92, if_neg h13, if_neg h10, if_neg h9, if_neg (by simp [hp])]

/-- Witness for C8 at a byte string with a control byte, a backslash and a
printable byte. -/
theorem escape_output_safe_witness :
    (∀ b ∈ [0, 92, 65], b < 256) ∧
      noStrayBackslash (EscapedStringFromByteString [0, 92, 65]) = true :=
  ⟨by decide, (escape_output_safe [0, 92, 65] (by decide)).2.1⟩

theorem isSome_map_eq (f : List Nat → List Nat) (o : Option (List Nat)) :
    (o.map f).isSome = o.isSome := by
  cases o <;> rfl

theorem decode_wf_aux : ∀ n : Nat, ∀ es : List Nat, es.length ≤ n →
    (ByteStringFromEscapedString es).isSome = wellFormedEscapes es ∧
    (decodeEscape es).isSome = wellFormedAfterBackslash es ∧
    (decodeHexEscape es).isSome = wellFormedHexDigits es := by
  intro n
  induction n with
  | zero =>
    intro es h
    have hnil : es = [] := List.length_eq_zero.mp (Nat.le_zero.mp h)
    subst hnil
    refine ⟨?_, ?_, ?_⟩ <;>
      simp [ByteStringFromEscapedString, decodeEscape, decodeHexEscape,
        wellFormedEscapes, wellFormedAfterBackslash, wellFormedHexDigits]
  | succ n ih =>
    intro es h
    cases es with
    | nil =>
      refine ⟨?_, ?_, ?_⟩ <;>
        simp [ByteStringFromEscapedString, decodeEscape, decodeHexEscape,
          wellFormedEscapes, wellFormedAfterBackslash, wellFormedHexDigits]
    | cons c rest =>
      have hr : rest.length ≤ n := by
        simp [List.length_cons] at h
        omega
      refine ⟨?_, ?_, ?_⟩
      · by_cases hc : c = 92
        · subst hc
          simp [ByteStringFromEscapedString, wellFormedEscapes, (ih rest hr).2.1]
        · cases hdec : ByteStringFromEscapedString rest with
          | none =>
            have hwf := (ih rest hr).1
            rw [hdec] at hwf
            simp [ByteStringFromEscapedString, wellFormedEscapes, hc, hdec, hwf.symm]
          | some bs =>
            have hwf := (ih rest hr).1
            rw [hdec] at hwf
            simp [ByteStringFromEscapedString, wellFormedEscapes, hc, hdec, hwf.symm]
      · by_cases h1 : c = 92
        · subst h1
          simp [decodeEscape, wellFormedAfterBackslash, isSome_map_eq, (ih rest hr).1]
        · by_cases h2 : c = 114
          · subst h2
            simp [decodeEscape, wellFormedAfterBackslash, isSome_map_eq, (ih rest hr).1]
          · by_cases h3 : c = 110
            · subst h3
              simp [decodeEscape, wellFormedAfterBackslash, isSome_map_eq, (ih rest hr).1]
            · by_cases h4 : c = 116
              · subst h4
                simp [decodeEscape, wellFormedAfterBackslash, isSome_map_eq, (ih rest hr).1]
              · by_cases h5 : c = 120
                · subst h5
                  simp [decodeEscape, wellFormedAfterBackslash, (ih rest hr).2.2]
                · simp [decodeEscape, wellFormedAfterBackslash, h1, h2, h3, h4, h5]
      · cases rest with
        | nil => simp [decodeHexEscape, wellFormedHexDigits]
        | cons d2 rest3 =>
          have hr3 : rest3.length ≤ n := by
            simp [List.length_cons] at h
            omega
          cases h1 : hexVal c <;> cases h2 : hexVal d2 <;>
            simp [decodeHexEscape, wellFormedHexDigits, h1, h2,
              isSome_map_eq, (ih rest3 hr3).1]

theorem dec_isSome_eq_wf (es : List Nat) :
    (ByteStringFromEscapedString es).isSome = wellFormedEscapes es :=
  (decode_wf_aux es.length es (Nat.le_refl _)).1

/-- C7: decoding fails (with `EncodingError`) exactly when the text has a
dangling trailing backslash, an unrecognized escape letter, or invalid or
incomplete hex digits after a hex escape (that is, exactly when
`wellFormedEscapes` is false); decoding succeeds on every other text, so a
failure never returns partial bytes (a `none` result carries none). -/
theorem decode_fails_iff_malformed (es : List Nat) :
    (ByteStringFromEscapedString es = none ↔ wellFormedEscapes es = false) ∧
    (∀ bs, ByteStringFromEscapedString es = some bs → wellFormedEscapes es = true) := by
  have h := dec_isSome_eq_wf es
  constructor
  · constructor
    · intro h2
      rw [h2] at h
      simpa using h.symm
    · intro h2
      cases hdec : ByteStringFromEscapedString es with
      | none => rfl
      | some bs =>
        rw [hdec] at h
        simp [h2] at h
  · intro bs h2
    rw [h2] at h
    simpa using h.symm

/-- Witness for C7's success direction at a concrete well-formed text. -/
theorem decode_fails_iff_malformed_witness :
    wellFormedEscapes [65] = true :=
  (decode_fails_iff_malformed [65]).2 [65] (by simp [ByteStringFromEscapedString])

theorem termRecvAux_ok (term : List Nat) :
    ∀ (inc acc : List Nat) (r rem : List Nat) (n : Nat),
      termRecvAux term inc acc = (.ok r, rem, n) → term.isSuffixOf r = true := by
  intro inc
  induction inc with
  | nil =>
    intro acc r rem n h
    simp [termRecvAux] at h
  | cons b rest ih =>
    intro acc r rem n h
    simp only [termRecvAux] at h
    by_cases hs : term.isSuffixOf (acc ++ [b]) = true
    · rw [if_pos hs] at h
      have hr : r = acc ++ [b] := by
        have := congrArg Prod.fst h
        simpa using this.symm
      rw [hr]
      exact hs
    · rw [if_neg hs] at h
      rcases hrec : termRecvAux term rest (acc ++ [b]) with ⟨r1, rem1, n1⟩
      rw [hrec] at h
      have h1 : r1 = .ok r := by
        have := congrArg Prod.fst h
        simpa using this
      exact ih (acc ++ [b]) r rem1 n1 (by rw [hrec, h1])

theorem termRecvAux_err (term : List Nat) :
    ∀ (inc acc : List Nat) (e : Err) (rem : List Nat) (n : Nat),
      termRecvAux term inc acc = (.error e, rem, n) → e = Err.timeout := by
  intro inc
  induction inc with
  | nil =>
    intro acc e rem n h
    simp [termRecvAux] at h
    exact h.1.symm
  | cons b rest ih =>
    intro acc e rem n h
    simp only [termRecvAux] at h
    by_cases hs : term.isSuffixOf (acc ++ [b]) = true
    · rw [if_pos hs] at h
      have := congrArg Prod.fst h
      simp at this
    · rw [if_neg hs] at h
      rcases hrec : termRecvAux term rest (acc ++ [b]) with ⟨r1, rem1, n1⟩
      rw [hrec] at h
      have h1 : r1 = .error e := by
        have := congrArg Prod.fst h
        simpa using this
      exact ih (acc ++ [b]) e rem1 n1 (by rw [hrec, h1])

theorem termRecvAux_timeout (term : List Nat) :
    ∀ (inc acc : List Nat),
      (∀ k, term.isSuffixOf (acc ++ inc.take k) = false) →
      (termRecvAux term inc acc).1 = .error Err.timeout := by
  intro inc
  induction inc with
  | nil =>
    intro acc h
    simp [termRecvAux]
  | cons b rest ih =>
    intro acc h
    have hb : term.isSuffixOf (acc ++ [b]) = false := by
      simpa using h 1
    simp only [termRecvAux]
    rw [if_neg (by simp [hb])]
    apply ih (acc ++ [b])
    intro k
    have := h (k + 1)
    simpa [List.append_assoc] using this

/-- C6: for every configured terminator sequence, `Terminator.recv`
returns, on success, the accumulated buffer whose tail equals the
terminator (the terminator bytes are included in the returned response);
its only failure is `TimeoutError`, and if the terminator never occurs as
the tail of any prefix of the arriving bytes the read times out. -/
theorem terminator_recv_spec (term : List Nat) (p : Port) :
    (∀ r p2, ResponseDetector.recv (.terminator term) p = (.ok r, p2) →
      term.isSuffixOf r = true) ∧
    (∀ e p2, ResponseDetector.recv (.terminator term) p = (.error e, p2) →
      e = Err.timeout) ∧
    ((∀ k, term.isSuffixOf (p.incoming.take k) = false) →
      (ResponseDetector.recv (.terminator term) p).1 = .error Err.timeout) := by
  refine ⟨?_, ?_, ?_⟩
  · intro r p2 hEq
    rcases hrec : termRecvAux term p.incoming [] with ⟨r1, rem1, n1⟩
    have h1 : r1 = .ok r := by
      have := congrArg Prod.fst hEq
      simpa [ResponseDetector.recv, hrec] using this
    exact termRecvAux_ok term p.incoming [] r rem1 n1 (by rw [hrec, h1])
  · intro e p2 hEq
    rcases hrec : termRecvAux term p.incoming [] with ⟨r1, rem1, n1⟩
    have h1 : r1 = .error e := by
      have := congrArg Prod.fst hEq
      simpa [ResponseDetector.recv, hrec] using this
    exact termRecvAux_err term p.incoming [] e rem1 n1 (by rw [hrec, h1])
  · intro hnever
    have := termRecvAux_timeout term p.incoming [] (by simpa using hnever)
    simp [ResponseDetector.recv, this]

/-- Witness for C6: on a port that will deliver `OK\r\n`, the terminator
detector for `\r\n` succeeds with a response ending in the terminator. -/
theorem terminator_recv_spec_witness :
    ([13, 10] : List Nat).isSuffixOf [79, 75, 13, 10] = true :=
  (terminator_recv_spec [13, 10] examplePort).1 [79, 75, 13, 10]
    ⟨[], [], 4⟩ rfl

/-- C9: `Ignoring.recv` (obtained from `newByName` at identifier `Ignore`)
always succeeds immediately with an empty byte string and performs no I/O
at all: the port is returned unchanged, with no reads issued and nothing
written. -/
theorem ignoring_recv_no_io (p : Port) :
    ResponseDetector.newByName (strBytes "Ignore") = .ok .ignoring ∧
    ResponseDetector.recv .ignoring p = (.ok [], p) ∧
    (ResponseDetector.recv .ignoring p).2.readOps = p.readOps ∧
    (ResponseDetector.recv .ignoring p).2.written = p.written :=
  ⟨rfl, rfl, rfl, rfl⟩

theorem firstMatchIdx_some (alts : List (List Nat)) (resp : List Nat) :
    ∀ i, firstMatchIdx alts resp = some i →
      i < alts.length ∧ alts.getD i [] = resp ∧
        ∀ j, j < i → alts.getD j [] ≠ resp := by
  induction alts with
  | nil =>
    intro i h
    simp [firstMatchIdx] at h
  | cons a rest ih =>
    intro i h
    unfold firstMatchIdx at h
    by_cases ha : a = resp
    · rw [if_pos ha] at h
      have h0 : i = 0 := by simpa using h.symm
      subst h0
      refine ⟨by simp, by simpa using ha, ?_⟩
      intro j hj
      omega
    · rw [if_neg ha] at h
      cases hrec : firstMatchIdx rest resp with
      | none =>
        rw [hrec] at h
        simp at h
      | some i0 =>
        rw [hrec] at h
        have hi : i = i0 + 1 := by simpa using h.symm
        subst hi
        obtain ⟨h1, h2, h3⟩ := ih i0 hrec
        refine ⟨by simp; omega, by simpa using h2, ?_⟩
        intro j hj
        cases j with
        | zero => simpa using ha
        | succ j0 =>
          have := h3 j0 (by omega)
          simpa using this

theorem firstMatchIdx_none_of (alts : List (List Nat)) (resp : List Nat)
    (h : ∀ a ∈ alts, a ≠ resp) : firstMatchIdx alts resp = none := by
  induction alts with
  | nil => rfl
  | cons a rest ih =>
    unfold firstMatchIdx
    rw [if_neg (h a (List.mem_cons_self a rest)),
      ih (fun x hx => h x (List.mem_cons_of_mem a hx))]
    rfl

theorem firstMatchIdx_isSome_of_mem (alts : List (List Nat)) (resp : List Nat)
    (h : resp ∈ alts) : ∃ i, firstMatchIdx alts resp = some i := by
  induction alts with
  | nil => cases h
  | cons a rest ih =>
    unfold firstMatchIdx
    by_cases ha : a = resp
    · exact ⟨0, by rw [if_pos ha]⟩
    · have hmem : resp ∈ rest := by
        cases List.mem_cons.mp h with
        | inl he => exact absurd he.symm ha
        | inr hr => exact hr
      obtain ⟨i0, hi0⟩ := ih hmem
      exact ⟨i0 + 1, by rw [if_neg ha, hi0]; rfl⟩

theorem recv_written (d : UserDefSerialBase) (p : Port) :
    (d.recv p).2.written = p.written := by
  unfold UserDefSerialBase.recv
  cases d.responseDetector with
  | none => rfl
  | some det =>
    cases det with
    | ignoring => rfl
    | terminator term => rfl
    | fixedLen n =>
      simp only [ResponseDetector.recv]
      split <;> rfl

theorem sendRecv_written (d : UserDefSerialBase) (p : Port)
    (command expectedResponse : List Nat) :
    ((d.sendRecv p command expectedResponse).2).written
      = p.written ++ [if d.binaryMode then command else command ++ d.asciiTerminator] := by
  have hsend : (d.send p command).written
      = p.written ++ [if d.binaryMode then command else command ++ d.asciiTerminator] := rfl
  rcases hq : d.recv (d.send p command) with ⟨res, p2⟩
  have hw0 := recv_written d (d.send p command)
  rw [hq] at hw0
  have hw : p2.written = (d.send p command).written := hw0
  simp only [UserDefSerialBase.sendRecv, hq]
  cases res with
  | ok resp =>
    by_cases hr : resp = expectedResponse
    · simp [hr, hw, hsend]
    · simp [hr, hw, hsend]
  | error e => simp [hw, hsend]

/-- C2: `sendQueryRecvAlternative` sends the command once (exactly one
message, the command with the ASCII terminator appended unless in binary
mode, is added to the port's write log), receives once (the resulting port
is exactly the port after one receive on the sent port), and returns the
index of the first alternative, in list order, equal to the received
bytes: whenever the received bytes equal some alternative the call does
return an index (completeness), and any returned index is the first
matching one (soundness); if no alternative matches it fails with
`ResponseMismatchError` and produces no index. -/
theorem sendQueryRecvAlternative_spec (d : UserDefSerialBase) (p : Port)
    (command : List Nat) (responseAlts : List (List Nat))
    (_hne : responseAlts ≠ []) :
    (d.sendQueryRecvAlternative p command responseAlts).2
        = (d.recv (d.send p command)).2 ∧
    (d.sendQueryRecvAlternative p command responseAlts).2.written
        = p.written ++ [if d.binaryMode then command else command ++ d.asciiTerminator] ∧
    (∀ resp, (d.recv (d.send p command)).1 = .ok resp →
      (∀ i, (d.sendQueryRecvAlternative p command responseAlts).1 = .ok i →
        i < responseAlts.length ∧ responseAlts.getD i [] = resp ∧
          ∀ j, j < i → responseAlts.getD j [] ≠ resp) ∧
      ((∀ a ∈ responseAlts, a ≠ resp) →
        (d.sendQueryRecvAlternative p command responseAlts).1
          = .error (.mismatch responseAlts resp)) ∧
      (resp ∈ responseAlts → ∃ i,
        (d.sendQueryRecvAlternative p command responseAlts).1 = .ok i)) := by
  rcases hq : d.recv (d.send p command) with ⟨res, p2⟩
  have hw0 := recv_written d (d.send p command)
  rw [hq] at hw0
  have hw : p2.written = (d.send p command).written := hw0
  have hout : (d.send p command).written
      = p.written ++ [if d.binaryMode then command else command ++ d.asciiTerminator] := by
    simp [UserDefSerialBase.send]
  refine ⟨?_, ?_, ?_⟩
  · cases res with
    | ok resp =>
      cases hfm : firstMatchIdx responseAlts resp <;>
        simp [UserDefSerialBase.sendQueryRecvAlternative, hq, hfm]
    | error e => simp [UserDefSerialBase.sendQueryRecvAlternative, hq]
  · cases res with
    | ok resp =>
      cases hfm : firstMatchIdx responseAlts resp <;>
        simp [UserDefSerialBase.sendQueryRecvAlternative, hq, hfm, hw, hout]
    | error e => simp [UserDefSerialBase.sendQueryRecvAlternative, hq, hw, hout]
  · intro resp hresp
    have hres : res = .ok resp := by simpa [hq] using hresp
    subst hres
    refine ⟨?_, ?_, ?_⟩
    · intro i hi
      cases hfm : firstMatchIdx responseAlts resp with
      | none => simp [UserDefSerialBase.sendQueryRecvAlternative, hq, hfm] at hi
      | some i0 =>
        have : i0 = i := by
          simpa [UserDefSerialBase.sendQueryRecvAlternative, hq, hfm] using hi
        subst this
        exact firstMatchIdx_some responseAlts resp i0 hfm
    · intro hnone
      have hfm := firstMatchIdx_none_of responseAlts resp hnone
      simp [UserDefSerialBase.sendQueryRecvAlternative, hq, hfm]
    · intro hmem
      obtain ⟨i0, hi0⟩ := firstMatchIdx_isSome_of_mem responseAlts resp hmem
      exact ⟨i0, by simp [UserDefSerialBase.sendQueryRecvAlternative, hq, hi0]⟩

/-- Witness for C2 at a ready device with the ignoring detector: the
received bytes (the empty byte string) equal the second alternative, so
the call succeeds with an index, and concretely with index 1 — the first
matching alternative in list order. -/
theorem sendQueryRecvAlternative_spec_witness :
    ([[65], []] : List (List Nat)) ≠ [] ∧
      (exampleReady.recv (exampleReady.send examplePort [5])).1 = .ok [] ∧
      ([] : List Nat) ∈ ([[65], []] : List (List Nat)) ∧
      (∃ i, (exampleReady.sendQueryRecvAlternative examplePort [5] [[65], []]).1
        = .ok i) ∧
      (exampleReady.sendQueryRecvAlternative examplePort [5] [[65], []]).1 = .ok 1 :=
  ⟨by decide, rfl, by simp,
    ((sendQueryRecvAlternative_spec exampleReady examplePort [5] [[65], []]
      (by decide)).2.2 [] rfl).2.2 (by simp),
    rfl⟩

/-- C3: `initialize()` is atomic with respect to the lifecycle state: from
`PreInit`, if building the response detector fails or the configured init
exchange fails for any reason, the device stays in `PreInit`; only on
full success does it transition to `Ready`. -/
theorem initialize_atomic (d : UserDefSerialBase) (p : Port)
    (h : d.state = DevState.preInit) :
    ((d.initDevice p).1 = .ok () → (d.initDevice p).2.1.state = DevState.ready) ∧
    (∀ e, (d.initDevice p).1 = .error e →
      (d.initDevice p).2.1.state = DevState.preInit) := by
  obtain ⟨st, bm, terml, dm, rdet, ic, ir, sc, sresp⟩ := d
  replace h : st = DevState.preInit := h
  subst h
  unfold UserDefSerialBase.initDevice
  cases hnew : ResponseDetector.newByName dm with
  | error e => simp [hnew]
  | ok det =>
    by_cases hcmd : ic = []
    · simp [hnew, hcmd]
    · rcases hsr : UserDefSerialBase.sendRecv
          ⟨DevState.preInit, bm, terml, dm, some det, ic, ir, sc, sresp⟩ p ic ir
          with ⟨res, p2⟩
      cases res with
      | ok u => simp [hnew, hcmd, hsr]
      | error e => simp [hnew, hcmd, hsr]

/-- Witness for C3 at a concrete pre-init device whose initialization
succeeds and reaches `Ready`. -/
theorem initialize_atomic_witness :
    exampleBase.state = DevState.preInit ∧
      (exampleBase.initDevice examplePort).2.1.state = DevState.ready :=
  ⟨rfl, (initialize_atomic exampleBase examplePort rfl).1 rfl⟩

/-- C4: `shutdown()` from `Ready` always succeeds and reaches the terminal
`ShutDown` state (even when its own hardware exchange fails — the result
is `ok` and the state is `ShutDown` unconditionally); a second call is a
no-op that performs no I/O (it returns the device and the port unchanged),
so two calls write the shutdown command at most once: across both calls
the write log grows by at most one message. -/
theorem shutdown_terminal_idempotent (d : UserDefSerialBase) (p : Port)
    (h : d.state = DevState.ready) :
    (d.shutdown p).1 = .ok () ∧
    (d.shutdown p).2.1.state = DevState.shutDown ∧
    ((d.shutdown p).2.1.shutdown (d.shutdown p).2.2)
        = (.ok (), (d.shutdown p).2.1, (d.shutdown p).2.2) ∧
    (d.shutdown p).2.2.written.length ≤ p.written.length + 1 := by
  obtain ⟨st, bm, terml, dm, rdet, ic, ir, sc, sresp⟩ := d
  replace h : st = DevState.ready := h
  subst h
  by_cases hcmd : sc = []
  · have h1 : UserDefSerialBase.shutdown
          ⟨DevState.ready, bm, terml, dm, rdet, ic, ir, sc, sresp⟩ p
        = (.ok (), ⟨DevState.shutDown, bm, terml, dm, rdet, ic, ir, sc, sresp⟩, p) := by
      simp [UserDefSerialBase.shutdown, hcmd]
    rw [h1]
    refine ⟨rfl, rfl, ?_, by change p.written.length ≤ p.written.length + 1; omega⟩
    simp [UserDefSerialBase.shutdown]
  · rcases hsr : UserDefSerialBase.sendRecv
        ⟨DevState.ready, bm, terml, dm, rdet, ic, ir, sc, sresp⟩ p sc sresp
        with ⟨res, p2⟩
    have h1 : UserDefSerialBase.shutdown
          ⟨DevState.ready, bm, terml, dm, rdet, ic, ir, sc, sresp⟩ p
        = (.ok (), ⟨DevState.shutDown, bm, terml, dm, rdet, ic, ir, sc, sresp⟩, p2) := by
      simp [UserDefSerialBase.shutdown, hcmd, hsr]
    rw [h1]
    have hw0 := sendRecv_written
      ⟨DevState.ready, bm, terml, dm, rdet, ic, ir, sc, sresp⟩ p sc sresp
    rw [hsr] at hw0
    have hw : p2.written
        = p.written ++ [if bm then sc else sc ++ terml] := hw0
    refine ⟨rfl, rfl, ?_, ?_⟩
    · simp [UserDefSerialBase.shutdown]
    · simp [hw]

/-- Witness for C4 at a concrete ready device. -/
theorem shutdown_terminal_idempotent_witness :
    exampleReady.state = DevState.ready ∧
      (exampleReady.shutdown examplePort).2.1.state = DevState.shutDown :=
  ⟨rfl, (shutdown_terminal_idempotent exampleReady examplePort rfl).2.1⟩

/-- C5: `setState(i)` rejects every index outside `[0, numPositions)` with
`ConfigError`, leaving the device (in particular `currentPosition`)
unchanged — the index is never clamped; for `i` in range, on success
`currentPosition` becomes `i`. -/
theorem setState_range_check (sd : UserDefSerialStateDevice) (p : Port) (i : Int) :
    ((i < 0 ∨ (sd.numPositions : Int) ≤ i) →
      (sd.setState p i).1 = .error Err.config ∧ (sd.setState p i).2.1 = sd) ∧
    (0 ≤ i → i < (sd.numPositions : Int) →
      ∀ u, (sd.setState p i).1 = .ok u →
        ((sd.setState p i).2.1.currentPosition : Int) = i) := by
  constructor
  · intro hout
    unfold UserDefSerialStateDevice.setState
    rw [if_pos hout]
    exact ⟨rfl, rfl⟩
  · intro h0 hlt u hok
    have hin : ¬(i < 0 ∨ (sd.numPositions : Int) ≤ i) := by omega
    rcases hsr : sd.base.sendRecv p (sd.positionCommands.getD i.toNat [])
        (sd.positionResponses.getD i.toNat []) with ⟨res, p2⟩
    cases res with
    | ok v =>
      have hstep : sd.setState p i
          = (.ok (), { sd with currentPosition := i.toNat }, p2) := by
        unfold UserDefSerialStateDevice.setState
        rw [if_neg hin, hsr]
      rw [hstep]
      show ((i.toNat : Nat) : Int) = i
      omega
    | error e =>
      have hstep : sd.setState p i = (.error e, sd, p2) := by
        unfold UserDefSerialStateDevice.setState
        rw [if_neg hin, hsr]
      rw [hstep] at hok
      simp at hok

/-- Witness for C5: at the three-position example device, `setState 3`
(one past the last valid index) is rejected with `ConfigError` and leaves
the device unchanged. -/
theorem setState_range_check_witness :
    ((3 : Int) < 0 ∨ ((exampleStateDevice.numPositions : Int) ≤ 3)) ∧
      (exampleStateDevice.setState examplePort 3).1 = .error Err.config ∧
      (exampleStateDevice.setState examplePort 3).2.1 = exampleStateDevice :=
  ⟨Or.inr (by decide),
    (setState_range_check exampleStateDevice examplePort 3).1 (Or.inr (by decide))⟩

/-- C10: `UserDefSerialShutter::Fire` returns `DEVICE_UNSUPPORTED_COMMAND`
unconditionally for every argument value, performing no I/O and leaving
the device state unchanged. -/
theorem fire_unsupported (sh : UserDefSerialShutter) (p : Port) (x : Float) :
    sh.fire p x = (.error .unsupportedCommand, sh, p) := rfl

end Theorems

end UserDefinedSerial

